import Mathlib

/-!
Shallow embedding of the `wain-validate` crate (src/wain-validate/src/lib.rs):
static validation of a WebAssembly-like module. Pure Rust functions become
Lean functions; `Result<'a, T>` becomes `Except Error T`; the one possible
panic (direct slice indexing `locals[i]`) is made explicit with `Option`,
`none` standing for the panic branch.

The AST node types (`Module`, `FuncType`, `Func`, `Import`) live in the
external `wain_ast` crate, which is not part of the provided sources; they
are modelled from the spec's data-model section (§3), which documents their
fields precisely. The body type-checker (`insn` module) is likewise not
among the provided sources and is modelled from the spec's algorithm (§4.3);
see `validate_func_body` below.
-/

namespace Wain

/-- Modelled from the spec: a value-kind of the module format
("parameter value-kinds", "result value-kinds"); the WebAssembly MVP
value types. The validator only compares value-kinds for equality. -/
inductive ValType where
  | I32
  | I64
  | F32
  | F64
deriving DecidableEq, Repr

/-- Modelled from the spec: a function type — ordered parameter value-kinds,
ordered result value-kinds, plus a source offset for diagnostics. -/
structure FuncType where
  start : Nat
  params : List ValType
  results : List ValType
deriving DecidableEq, Repr

/-- Modelled from the spec: an instruction of a function body, as the spec's
body type-checker algorithm (§4.3) describes them: a plain instruction with
declared operand types `tin` and result types `tout`; the structured
constructs block/loop/if, each declaring a block type (param types, result
types); and a branch to a relative depth, conditional or unconditional.
Instructions in this model carry no individual source offsets; body-checker
diagnostics reuse the function's start offset. -/
inductive Insn where
  | plain (tin tout : List ValType)
  | block (ps rs : List ValType) (body : List Insn)
  | loopB (ps rs : List ValType) (body : List Insn)
  | iteB (ps rs : List ValType) (thn els : List Insn)
  | br (depth : Nat) (conditional : Bool)
deriving Repr

/-- Modelled from the spec: an import binding — module-name and item-name. -/
structure Import where
  mod_name : String
  name : String
deriving DecidableEq, Repr

/-- Modelled from the spec: the kind of a function — either an import
binding or a body (local value-kinds plus an instruction sequence). -/
inductive FuncKind where
  | imported (imp : Import)
  | body (locals : List ValType) (expr : List Insn)
deriving Repr

/-- Modelled from the spec: a function — a type index, a source offset,
and a kind. -/
structure Func where
  start : Nat
  idx : Nat
  kind : FuncKind
deriving Repr

/-- Modelled from the spec: the root module — ordered function types,
ordered functions, tables, globals, memories. The validator only reads
`types` and `funcs`; the element types of the other three vectors are left
as type parameters. -/
structure Module (Table Global Memory : Type) where
  types : List FuncType
  funcs : List Func
  tables : List Table
  globals : List Global
  memories : List Memory

/-- The closed error-kind set of `error.rs`, as used by `lib.rs`, plus the
body type-checker's instruction-level kinds, the latter modelled from the
spec (§4.3, §7: operand-stack underflow, operand type mismatch, unresolved
branch target, return-type mismatch). -/
inductive ErrorKind where
  | IndexOutOfBounds (idx : Nat) (upper : Nat) (what : String)
  | MultipleReturnTypes (results : List ValType)
  | UnknownImport (mod_name : String) (name : String)
  | TooFewFuncLocalsForParams (params : Nat) (locals : Nat)
  | ParamTypeMismatchWithLocal (idx : Nat) (param : ValType) (localTy : ValType)
  | StackUnderflow
  | TypeMismatch (expected : ValType) (actual : ValType)
  | UnresolvedBranchTarget (depth : Nat) (nesting : Nat)
  | ReturnTypeMismatch (expected : List ValType) (actual : List ValType)
deriving DecidableEq, Repr

/-- `Error::new(kind, offset, source)`: an error kind, a byte offset into
the source, and the source text kept for rendering. -/
structure Error where
  kind : ErrorKind
  offset : Nat
  source : String
deriving DecidableEq, Repr

/-- `Result<'a, T>` of the validator. -/
abbrev Res (α : Type) := Except Error α

/-- `Context::validate_idx`: bounds-checked lookup of `idx` in the
declaration vector `s`; on failure, `IndexOutOfBounds` carries the
attempted index, the vector's length and the kind label `what`. The
context's only data used here is the source text. -/
def validate_idx {T : Type} (source : String) (s : List T) (idx : Nat)
    (what : String) (offset : Nat) : Res T :=
  match s.get? idx with
  | some item => .ok item
  | none => .error ⟨.IndexOutOfBounds idx s.length what, offset, source⟩

/-- `FuncType::validate`: fails with `MultipleReturnTypes` when more than
one result is declared. -/
def funcType_validate (source : String) (ft : FuncType) : Res Unit :=
  if ft.results.length > 1 then
    .error ⟨.MultipleReturnTypes ft.results, ft.start, source⟩
  else
    .ok ()

/-- `validate_import`: rejects with `UnknownImport` exactly when the
module-name differs from "env" and the item-name differs from "print". -/
def validate_import (source : String) (imp : Import) (offset : Nat) : Res Unit :=
  if imp.mod_name ≠ "env" ∧ imp.name ≠ "print" then
    .error ⟨.UnknownImport imp.mod_name imp.name, offset, source⟩
  else
    .ok ()

/-- Modelled from the spec: a control frame of the body type-checker (§4.3)
— the frame's expected result value-kinds, the operand-stack height at frame
entry (below which the frame may never pop), and the unreachable flag. -/
structure CtrlFrame where
  results : List ValType
  height : Nat
  unreachable : Bool
deriving DecidableEq, Repr

/-- Modelled from the spec (§4.3 rule 2): pop the expected operand types
(second argument, top-down) off the operand stack (first list argument,
head = top), failing with a stack-underflow error when the stack height
would fall below the current frame's base `height`, and with a
type-mismatch error when a popped entry does not match the expected type. -/
def popOperands (source : String) (offset : Nat) (height : Nat) :
    List ValType → List ValType → Res (List ValType)
  | stack, [] => .ok stack
  | [], _ :: _ => .error ⟨.StackUnderflow, offset, source⟩
  | v :: rest, t :: ts =>
    if rest.length < height then
      .error ⟨.StackUnderflow, offset, source⟩
    else if v ≠ t then
      .error ⟨.TypeMismatch t v, offset, source⟩
    else
      popOperands source offset height rest ts

/-- Modelled from the spec (§4.3 rule 1): in polymorphic (unreachable)
mode pops are satisfied by manufacturing any required type on demand and
never underflow — actual entries above the frame's base `height` are
discarded without any type check, missing ones are manufactured. -/
def dropPoly (height : Nat) : List ValType → Nat → List ValType
  | stack, 0 => stack
  | [], _ + 1 => []
  | v :: rest, n + 1 =>
    if rest.length < height then v :: rest else dropPoly height rest n

/-- Modelled from the spec (§4.3 rule 3, exit): on normal fall-through exit
of a structured construct the stack above the frame's base height must equal
exactly the declared result types `rs` (vacuously satisfied when the inner
frame ended unreachable); `stack` is the operand stack at construct entry
(its length is the frame's base height). -/
def blockExit (source : String) (offset : Nat) (rs stack : List ValType) :
    List ValType × CtrlFrame → Res (List ValType)
  | (stack₂, frame₂) =>
    if frame₂.unreachable then
      .ok (rs ++ stack)
    else if stack₂.length = stack.length + rs.length ∧ stack₂.take rs.length = rs then
      .ok stack₂
    else
      .error ⟨.ReturnTypeMismatch rs (stack₂.take (stack₂.length - stack.length)), offset, source⟩

/-- Modelled from the spec (§4.3): the abstract stack machine of the body
type-checker, walking an instruction sequence under a current control frame
`cur` and the enclosing frames `outer` (innermost first). Returns the final
operand stack and the current frame (only its unreachable flag can change).
Rule 1: with the unreachable flag set, pops are manufactured on demand and
pushes add the instruction's declared result types. Rule 2: otherwise plain
instructions pop their declared operand types and push their declared result
types. Rules 3–4: block/loop/if push a fresh frame whose base height is the
current stack height, seed the declared block parameters, validate the body
(both arms for if) and require the declared results on exit. Rule 5: a
branch must resolve to an enclosing frame by relative depth, its operand
types must match the target frame's expected results, and an unconditional
branch sets the current frame's unreachable flag. -/
def checkSeq (source : String) (offset : Nat) :
    List CtrlFrame → CtrlFrame → List ValType → List Insn →
    Res (List ValType × CtrlFrame)
  | _, cur, stack, [] => .ok (stack, cur)
  | outer, cur, stack, .plain tin tout :: rest =>
    if cur.unreachable then
      checkSeq source offset outer cur (tout ++ dropPoly cur.height stack tin.length) rest
    else
      match popOperands source offset cur.height stack tin with
      | .error e => .error e
      | .ok stack' => checkSeq source offset outer cur (tout ++ stack') rest
  | outer, cur, stack, .block ps rs body :: rest =>
    match checkSeq source offset (cur :: outer) ⟨rs, stack.length, false⟩ (ps ++ stack) body with
    | .error e => .error e
    | .ok st =>
      match blockExit source offset rs stack st with
      | .error e => .error e
      | .ok stack' => checkSeq source offset outer cur stack' rest
  | outer, cur, stack, .loopB ps rs body :: rest =>
    match checkSeq source offset (cur :: outer) ⟨rs, stack.length, false⟩ (ps ++ stack) body with
    | .error e => .error e
    | .ok st =>
      match blockExit source offset rs stack st with
      | .error e => .error e
      | .ok stack' => checkSeq source offset outer cur stack' rest
  | outer, cur, stack, .iteB ps rs thn els :: rest =>
    match checkSeq source offset (cur :: outer) ⟨rs, stack.length, false⟩ (ps ++ stack) thn with
    | .error e => .error e
    | .ok stT =>
      match blockExit source offset rs stack stT with
      | .error e => .error e
      | .ok _ =>
        match checkSeq source offset (cur :: outer) ⟨rs, stack.length, false⟩ (ps ++ stack) els with
        | .error e => .error e
        | .ok stE =>
          match blockExit source offset rs stack stE with
          | .error e => .error e
          | .ok stack' => checkSeq source offset outer cur stack' rest
  | outer, cur, stack, .br depth conditional :: rest =>
    match (cur :: outer).get? depth with
    | none => .error ⟨.UnresolvedBranchTarget depth (outer.length + 1), offset, source⟩
    | some target =>
      if cur.unreachable then
        checkSeq source offset outer cur (dropPoly cur.height stack target.results.length) rest
      else
        match popOperands source offset cur.height stack target.results with
        | .error e => .error e
        | .ok stack' =>
          if conditional then
            checkSeq source offset outer cur (target.results ++ stack') rest
          else
            checkSeq source offset outer { cur with unreachable := true } stack' rest
termination_by _ _ _ insns => sizeOf insns
decreasing_by
  all_goals simp_wf
  all_goals omega

/-- Modelled from the spec: `crate::insn::validate_func_body` (the `insn`
module is not among the provided sources). Checks a function body's
instruction sequence in a fresh outermost frame whose expected results are
the function's optional result type; at body end (§4.3 rule 6) the final
operand stack must equal exactly the declared result sequence, unless the
outermost frame ended unreachable. The locals list is part of the working
state but no instruction of the spec's algorithm description reads it. -/
def validate_func_body (source : String) (expr : List Insn)
    (_locals : List ValType) (ret : Option ValType) (offset : Nat) : Res Unit :=
  match checkSeq source offset [] ⟨ret.toList, 0, false⟩ [] expr with
  | .error e => .error e
  | .ok (stack, frame) =>
    if frame.unreachable then .ok ()
    else if stack = ret.toList then .ok ()
    else .error ⟨.ReturnTypeMismatch ret.toList stack, offset, source⟩

/-- The parameter-comparison loop of `Func::validate`: for each parameter
position `i` (the remaining parameters are the first list argument), compare
`locals[i]` with the parameter type. `locals[i]` is a direct slice index in
the Rust source; its panic branch is modelled as `none`. -/
def checkParams (source : String) (offset : Nat) (locals : List ValType) :
    List ValType → Nat → Option (Res Unit)
  | [], _ => some (.ok ())
  | param :: ps, i =>
    match locals.get? i with
    | none => none
    | some localTy =>
      if localTy ≠ param then
        some (.error ⟨.ParamTypeMismatchWithLocal i param localTy, offset, source⟩)
      else
        checkParams source offset locals ps (i + 1)

/-- `Func::validate`: resolve the declared function type via the index
resolver; for an import delegate to `validate_import`; for a body check
`locals.len() >= params.len()`, then the parameter-comparison loop, then
delegate to the body type-checker with the locals, the optional single
result type (`results.get(0)`) and the instruction sequence. `none` models
the (unreachable) indexing panic inside the loop. -/
def func_validate {Tb G M : Type} (m : Module Tb G M) (source : String)
    (f : Func) : Option (Res Unit) :=
  match validate_idx source m.types f.idx "type" f.start with
  | .error e => some (.error e)
  | .ok func_ty =>
    match f.kind with
    | .imported imp => some (validate_import source imp f.start)
    | .body locals expr =>
      if locals.length < func_ty.params.length then
        some (.error ⟨.TooFewFuncLocalsForParams func_ty.params.length locals.length,
                      f.start, source⟩)
      else
        match checkParams source f.start locals func_ty.params 0 with
        | none => none
        | some (.error e) => some (.error e)
        | some (.ok _) =>
          some (validate_func_body source expr locals func_ty.results.head? f.start)

/-- `impl Validate for Vec<V>` at a panic-free element validator:
`iter().map(..).collect()` on `Result` stops at the first error. -/
def validateAll {α : Type} (f : α → Res Unit) : List α → Res Unit
  | [] => .ok ()
  | x :: xs =>
    match f x with
    | .error e => .error e
    | .ok _ => validateAll f xs

/-- `impl Validate for Vec<V>` at an element validator that may panic
(`none`): stops at the first error or panic. -/
def validateAllOpt {α : Type} (f : α → Option (Res Unit)) :
    List α → Option (Res Unit)
  | [] => some (.ok ())
  | x :: xs =>
    match f x with
    | none => none
    | some (.error e) => some (.error e)
    | some (.ok _) => validateAllOpt f xs

/-- `Module::validate`: validate all function types, then all functions,
short-circuiting at the first failure. Tables, globals and memories are not
checked. -/
def module_validate {Tb G M : Type} (m : Module Tb G M) (source : String) :
    Option (Res Unit) :=
  match validateAll (funcType_validate source) m.types with
  | .error e => some (.error e)
  | .ok _ => validateAllOpt (func_validate m source) m.funcs

/-- The public entry point `validate(module, source)`: builds the context
over the borrowed module and source and runs `Module::validate`. -/
def validate {Tb G M : Type} (m : Module Tb G M) (source : String) :
    Option (Res Unit) :=
  module_validate m source

/-- The per-declaration validation outcomes of a module, in the order the
orchestrator checks them: every function type first, then every function
(`none` = panic). -/
def declResults {Tb G M : Type} (m : Module Tb G M) (source : String) :
    List (Option (Res Unit)) :=
  m.types.map (fun t => some (funcType_validate source t)) ++
    m.funcs.map (func_validate m source)

/-- First-failure-wins over a list of per-declaration outcomes: the first
entry that is not a success is returned; all-success gives success. -/
def firstFailure : List (Option (Res Unit)) → Option (Res Unit)
  | [] => some (.ok ())
  | some (.ok _) :: rs => firstFailure rs
  | r :: _ => r

/-- Is an instruction a plain (non-structured, non-branch) instruction? -/
def isPlain : Insn → Bool
  | .plain _ _ => true
  | _ => false

/-! ## Helper lemmas -/

theorem checkParams_isSome (source : String) (offset : Nat)
    (locals : List ValType) :
    ∀ (ps : List ValType) (i : Nat), i + ps.length ≤ locals.length →
      checkParams source offset locals ps i ≠ none := by
  intro ps
  induction ps with
  | nil => intro i _; simp [checkParams]
  | cons p ps ih =>
    intro i hlen
    have hi : i < locals.length := by simp at hlen; omega
    have hl : locals.get? i = some (locals.get ⟨i, hi⟩) := List.get?_eq_get hi
    have hrec := ih (i + 1) (by simp at hlen ⊢; omega)
    simp only [checkParams, hl]
    by_cases h : locals.get ⟨i, hi⟩ = p
    · simp only [List.get_eq_getElem] at h
      simp [h, hrec]
    · simp only [List.get_eq_getElem] at h
      simp [h]

/-! ## Claim theorems -/

/-- C1: validation of an import fails with `UnknownImport` carrying the
import's module-name and item-name iff both the module-name is not "env"
and the item-name is not "print"; whenever the module-name is "env" or the
item-name is "print", the import is accepted. -/
theorem import_accept_iff (source : String) (imp : Import) (offset : Nat) :
    (validate_import source imp offset =
        .error ⟨.UnknownImport imp.mod_name imp.name, offset, source⟩ ↔
      imp.mod_name ≠ "env" ∧ imp.name ≠ "print") ∧
    ((imp.mod_name = "env" ∨ imp.name = "print") →
      validate_import source imp offset = .ok ()) := by
  unfold validate_import
  constructor
  · by_cases h : imp.mod_name ≠ "env" ∧ imp.name ≠ "print" <;> simp [h]
  · intro h
    have hn : ¬(imp.mod_name ≠ "env" ∧ imp.name ≠ "print") := by tauto
    simp [hn]

/-- Witness for C1 at the truth table's rows: (mod "env", name "x") is
accepted; (mod "y", name "x") is rejected with `UnknownImport "y" "x"`. -/
theorem import_accept_iff_witness :
    validate_import "src" ⟨"env", "x"⟩ 7 = .ok () ∧
    validate_import "src" ⟨"y", "x"⟩ 7 =
      .error ⟨.UnknownImport "y" "x", 7, "src"⟩ :=
  ⟨(import_accept_iff "src" ⟨"env", "x"⟩ 7).2 (Or.inl rfl),
   (import_accept_iff "src" ⟨"y", "x"⟩ 7).1.mpr (by decide)⟩

/-- C4: `FuncType` validation fails with `MultipleReturnTypes` carrying
exactly the declared result list iff the result sequence is longer than 1;
with zero or one result it passes. -/
theorem funcType_multiple_returns_iff (source : String) (ft : FuncType) :
    (funcType_validate source ft =
        .error ⟨.MultipleReturnTypes ft.results, ft.start, source⟩ ↔
      ft.results.length > 1) ∧
    (ft.results.length ≤ 1 → funcType_validate source ft = .ok ()) := by
  constructor
  · unfold funcType_validate
    by_cases h : ft.results.length > 1 <;> simp [h]
  · intro hle
    have h : ¬ ft.results.length > 1 := by omega
    unfold funcType_validate
    simp [h]

/-- Witness for C4: a two-result function type is rejected citing its
result list; a one-result type passes. -/
theorem funcType_multiple_returns_iff_witness :
    funcType_validate "s" ⟨3, [], [.I32, .F64]⟩ =
      .error ⟨.MultipleReturnTypes [.I32, .F64], 3, "s"⟩ ∧
    funcType_validate "s" ⟨3, [], [.I32]⟩ = .ok () :=
  ⟨(funcType_multiple_returns_iff "s" ⟨3, [], [.I32, .F64]⟩).1.mpr (by decide),
   (funcType_multiple_returns_iff "s" ⟨3, [], [.I32]⟩).2 (by decide)⟩

/-- C2: the index resolver returns element `idx` of the declaration vector
when `idx` is in bounds, and otherwise fails with `IndexOutOfBounds`
carrying the attempted index, the vector's length as the upper bound and
the kind label; in particular a function whose type index is at least
`types.length` fails with `IndexOutOfBounds{idx, types.length, "type"}`. -/
theorem validate_idx_spec {T : Type} (source what : String) (offset : Nat)
    (s : List T) (idx : Nat) :
    (∀ h : idx < s.length,
      validate_idx source s idx what offset = .ok (s.get ⟨idx, h⟩)) ∧
    (s.length ≤ idx →
      validate_idx source s idx what offset =
        .error ⟨.IndexOutOfBounds idx s.length what, offset, source⟩) ∧
    (∀ {Tb G M : Type} (m : Module Tb G M) (f : Func),
      m.types.length ≤ f.idx →
      func_validate m source f =
        some (.error ⟨.IndexOutOfBounds f.idx m.types.length "type",
                      f.start, source⟩)) := by
  refine ⟨fun h => ?_, fun h => ?_, fun m f h => ?_⟩
  · simp [validate_idx, List.getElem?_eq_getElem h]
  · simp [validate_idx, List.getElem?_eq_none h]
  · simp [func_validate, validate_idx, List.getElem?_eq_none h]

/-- Witness for C2: looking index 5 up in a two-element vector fails with
`IndexOutOfBounds{5, 2, "type"}`; index 1 succeeds. -/
theorem validate_idx_spec_witness :
    validate_idx "s" ([10, 20] : List Nat) 1 "type" 4 = .ok 20 ∧
    validate_idx "s" ([10, 20] : List Nat) 5 "type" 4 =
      .error ⟨.IndexOutOfBounds 5 2 "type", 4, "s"⟩ :=
  ⟨(validate_idx_spec "s" "type" 4 [10, 20] 1).1 (by decide),
   (validate_idx_spec "s" "type" 4 [10, 20] 5).2.1 (by decide)⟩

/-- C9: the direct indexing `locals[i]` in the parameter-comparison loop is
in bounds whenever the loop starts under the already-passed check
`locals.length ≥ params.length`: the panic branch (`none`) is unreachable,
and consequently function validation as a whole never panics. -/
theorem checkParams_no_panic (source : String) (offset : Nat)
    (locals params : List ValType) (h : params.length ≤ locals.length) :
    checkParams source offset locals params 0 ≠ none ∧
    (∀ {Tb G M : Type} (m : Module Tb G M) (f : Func),
      func_validate m source f ≠ none) := by
  constructor
  · exact checkParams_isSome source offset locals params 0 (by omega)
  · intro Tb G M m f
    unfold func_validate
    cases hidx : validate_idx source m.types f.idx "type" f.start with
    | error e => simp
    | ok func_ty =>
      cases hk : f.kind with
      | imported imp => simp
      | body ls expr =>
        by_cases hlen : ls.length < func_ty.params.length
        · simp [hlen]
        · have hcp := checkParams_isSome source f.start ls func_ty.params 0
            (by omega)
          simp only [hlen, if_neg, ite_false]
          cases hr : checkParams source f.start ls func_ty.params 0 with
          | none => exact absurd hr hcp
          | some r => cases r <;> simp

/-- Witness for C9: with two params and two locals the loop never reaches
the panic branch. -/
theorem checkParams_no_panic_witness :
    checkParams "s" 0 [.I32, .F32] [.I32, .F32] 0 ≠ none :=
  (checkParams_no_panic "s" 0 [.I32, .F32] [.I32, .F32] (by decide)).1

/-- C8: a module whose types and funcs sequences are both empty validates
successfully, whatever the tables, globals and memories sequences hold. -/
theorem empty_module_validates (Tb G M : Type) (tables : List Tb)
    (globals : List G) (memories : List M) (source : String) :
    validate ⟨[], [], tables, globals, memories⟩ source = some (.ok ()) := rfl

theorem func_validate_congr {Tb G M Tb₂ G₂ M₂ : Type} (m : Module Tb G M)
    (m₂ : Module Tb₂ G₂ M₂) (source : String) (f : Func)
    (ht : m.types = m₂.types) :
    func_validate m source f = func_validate m₂ source f := by
  unfold func_validate
  rw [ht]

/-- C7: validation is deterministic and mutation-free — it is a pure
function of the module's declarations and the source text, so validating
the same (unchanged) module twice yields the same result, and two modules
with the same types and funcs validate identically. -/
theorem validate_deterministic {Tb G M Tb₂ G₂ M₂ : Type} (m : Module Tb G M)
    (m₂ : Module Tb₂ G₂ M₂) (source : String)
    (ht : m.types = m₂.types) (hf : m.funcs = m₂.funcs) :
    validate m source = validate m source ∧
    validate m source = validate m₂ source := by
  refine ⟨rfl, ?_⟩
  unfold validate module_validate
  rw [ht, hf]
  cases validateAll (funcType_validate source) m₂.types with
  | error e => rfl
  | ok u =>
    simp only
    have : ∀ fs, validateAllOpt (func_validate m source) fs =
        validateAllOpt (func_validate m₂ source) fs := by
      intro fs
      induction fs with
      | nil => rfl
      | cons x xs ih =>
        simp only [validateAllOpt, func_validate_congr m m₂ source x ht, ih]
    exact this m₂.funcs

/-- Witness for C7: a concrete module validates to the same result twice. -/
theorem validate_deterministic_witness :
    validate (⟨[], [], [], [], []⟩ : Module Unit Unit Unit) "" =
      validate (⟨[], [], [], [], []⟩ : Module Unit Unit Unit) "" :=
  (validate_deterministic (⟨[], [], [], [], []⟩ : Module Unit Unit Unit)
    (⟨[], [], [], [], []⟩ : Module Unit Unit Unit) "" rfl rfl).1

/-- C10: for an import-kind function whose type index resolves, validation
delegates to the import validator alone — the outcome is
`validate_import` of the module-name and item-name at the function's
offset, and it is unchanged under replacing the module by any other module
in which the type index still resolves (the resolved function type's
parameter and result lists are never inspected, and no locals or arity
checks apply). -/
theorem import_func_ignores_type {Tb G M : Type} (m : Module Tb G M)
    (source : String) (f : Func) (imp : Import)
    (hk : f.kind = .imported imp) (ht : f.idx < m.types.length) :
    func_validate m source f = some (validate_import source imp f.start) ∧
    (∀ {Tb₂ G₂ M₂ : Type} (m₂ : Module Tb₂ G₂ M₂),
      f.idx < m₂.types.length →
      func_validate m₂ source f = func_validate m source f) := by
  have main : ∀ {Tb' G' M' : Type} (m' : Module Tb' G' M'),
      f.idx < m'.types.length →
      func_validate m' source f = some (validate_import source imp f.start) := by
    intro Tb' G' M' m' h
    unfold func_validate validate_idx
    simp [List.getElem?_eq_getElem h, hk]
  exact ⟨main m ht, fun m₂ h₂ => (main m₂ h₂).trans (main m ht).symm⟩

/-- Witness for C10: an imported function in a module with one (two-param)
type validates exactly as its import binding does. -/
theorem import_func_ignores_type_witness :
    func_validate
      (⟨[⟨0, [.I32, .I64], [.F32]⟩], [], [], [], []⟩ : Module Unit Unit Unit)
      "s" ⟨9, 0, .imported ⟨"env", "foo"⟩⟩ =
      some (validate_import "s" ⟨"env", "foo"⟩ 9) :=
  (import_func_ignores_type
    (⟨[⟨0, [.I32, .I64], [.F32]⟩], [], [], [], []⟩ : Module Unit Unit Unit)
    "s" ⟨9, 0, .imported ⟨"env", "foo"⟩⟩ ⟨"env", "foo"⟩ rfl (by decide)).1

theorem firstFailure_map_opt {α : Type} (f : α → Option (Res Unit)) :
    ∀ xs : List α, firstFailure (xs.map f) = validateAllOpt f xs := by
  intro xs
  induction xs with
  | nil => rfl
  | cons x xs ih =>
    simp only [List.map_cons, validateAllOpt]
    cases h : f x with
    | none => simp [firstFailure]
    | some r =>
      cases r with
      | error e => simp [firstFailure]
      | ok u => simpa [firstFailure] using ih

theorem firstFailure_append_map {α : Type} (f : α → Res Unit)
    (ys : List (Option (Res Unit))) :
    ∀ xs : List α,
      firstFailure (xs.map (fun x => some (f x)) ++ ys) =
        match validateAll f xs with
        | .error e => some (.error e)
        | .ok _ => firstFailure ys := by
  intro xs
  induction xs with
  | nil => rfl
  | cons x xs ih =>
    simp only [List.map_cons, List.cons_append, validateAll]
    cases h : f x with
    | error e => simp [firstFailure]
    | ok u => simpa [firstFailure] using ih

theorem module_validate_eq_firstFailure {Tb G M : Type} (m : Module Tb G M)
    (source : String) :
    module_validate m source = firstFailure (declResults m source) := by
  unfold module_validate declResults
  rw [firstFailure_append_map, firstFailure_map_opt]

theorem firstFailure_first :
    ∀ {l : List (Option (Res Unit))} {i : Nat} {r : Option (Res Unit)},
      l.get? i = some r → r ≠ some (.ok ()) →
      (∀ j, j < i → l.get? j = some (some (.ok ()))) →
      firstFailure l = r := by
  intro l
  induction l with
  | nil => intro i r h; simp [List.get?] at h
  | cons a l ih =>
    intro i r h hr hprev
    cases i with
    | zero =>
      have ha : a = r := by simpa using h
      subst ha
      match a, hr with
      | none, _ => rfl
      | some (.error e), _ => rfl
      | some (.ok ()), hr => exact absurd rfl hr
    | succ i =>
      have ha : a = some (.ok ()) := by simpa using hprev 0 (Nat.succ_pos i)
      subst ha
      have h' : l.get? i = some r := by simpa using h
      have hprev' : ∀ j, j < i → l.get? j = some (some (.ok ())) := by
        intro j hj
        simpa using hprev (j + 1) (by omega)
      simpa [firstFailure] using ih h' hr hprev'

theorem firstFailure_all_ok :
    ∀ {l : List (Option (Res Unit))},
      (∀ r ∈ l, r = some (.ok ())) → firstFailure l = some (.ok ()) := by
  intro l
  induction l with
  | nil => intro _; rfl
  | cons a l ih =>
    intro h
    have ha : a = some (.ok ()) := h a (List.mem_cons_self a l)
    subst ha
    simpa [firstFailure] using ih fun r hr => h r (List.mem_cons_of_mem _ hr)

/-- C5: module validation checks every function-type declaration before any
function declaration and is fail-fast first-error-wins: the result is the
outcome of the first declaration, in that fixed order, whose validation is
not a success; all-success modules validate; and once a type declaration
fails, the function list is never examined. -/
theorem module_validate_first_error {Tb G M : Type} (m : Module Tb G M)
    (source : String) :
    (∀ i r, (declResults m source).get? i = some r →
      r ≠ some (.ok ()) →
      (∀ j, j < i → (declResults m source).get? j = some (some (.ok ()))) →
      module_validate m source = r) ∧
    ((∀ r ∈ declResults m source, r = some (.ok ())) →
      module_validate m source = some (.ok ())) ∧
    (∀ e, validateAll (funcType_validate source) m.types = .error e →
      ∀ funcs' : List Func,
        module_validate { m with funcs := funcs' } source =
          some (.error e)) := by
  refine ⟨fun i r h hr hprev => ?_, fun h => ?_, fun e he funcs' => ?_⟩
  · rw [module_validate_eq_firstFailure]
    exact firstFailure_first h hr hprev
  · rw [module_validate_eq_firstFailure]
    exact firstFailure_all_ok h
  · simp [module_validate, he]

/-- Witness for C5: the first declaration of a one-bad-type module decides
the outcome. -/
theorem module_validate_first_error_witness :
    module_validate
      (⟨[⟨0, [], [.I32, .I32]⟩], [], [], [], []⟩ : Module Unit Unit Unit)
      "" =
      some (.error ⟨.MultipleReturnTypes [.I32, .I32], 0, ""⟩) :=
  (module_validate_first_error
      (⟨[⟨0, [], [.I32, .I32]⟩], [], [], [], []⟩ : Module Unit Unit Unit)
      "").1 0 _ rfl (by simp) (fun j hj => absurd hj (by omega))

theorem checkParams_all_ok (source : String) (offset : Nat)
    (locals : List ValType) :
    ∀ (ps : List ValType) (i : Nat),
      (∀ j, j < ps.length → locals.get? (i + j) = ps.get? j) →
      checkParams source offset locals ps i = some (.ok ()) := by
  intro ps
  induction ps with
  | nil => intro i _; rfl
  | cons p ps ih =>
    intro i hall
    have h0 : locals.get? i = some p := by simpa using hall 0 (by simp)
    simp only [checkParams, h0]
    rw [if_neg (not_not_intro rfl)]
    refine ih (i + 1) fun j hj => ?_
    have := hall (j + 1) (by simp; omega)
    have heq : i + (j + 1) = i + 1 + j := by omega
    simpa [heq] using this

theorem checkParams_first_mismatch (source : String) (offset : Nat)
    (locals : List ValType) :
    ∀ (ps : List ValType) (i k : Nat) (p l : ValType),
      ps.get? k = some p → locals.get? (i + k) = some l → l ≠ p →
      (∀ j, j < k → locals.get? (i + j) = ps.get? j) →
      checkParams source offset locals ps i =
        some (.error ⟨.ParamTypeMismatchWithLocal (i + k) p l,
          offset, source⟩) := by
  intro ps
  induction ps with
  | nil => intro i k p l hp; simp [List.get?] at hp
  | cons q ps ih =>
    intro i k p l hp hl hne hprev
    cases k with
    | zero =>
      have hq : q = p := by simpa using hp
      subst hq
      have hl0 : locals.get? i = some l := by simpa using hl
      simp only [checkParams, hl0]
      rw [if_pos hne]
      simp
    | succ k =>
      have h0 : locals.get? i = some q := by
        simpa using hprev 0 (Nat.succ_pos k)
      simp only [checkParams, h0]
      rw [if_neg (not_not_intro rfl)]
      have hp' : ps.get? k = some p := by simpa using hp
      have hl' : locals.get? (i + 1 + k) = some l := by
        have heq : i + (k + 1) = i + 1 + k := by omega
        simpa [heq] using hl
      have hprev' : ∀ j, j < k → locals.get? (i + 1 + j) = ps.get? j := by
        intro j hj
        have := hprev (j + 1) (by omega)
        have heq : i + (j + 1) = i + 1 + j := by omega
        simpa [heq] using this
      have := ih (i + 1) k p l hp' hl' hne hprev'
      have heq : i + 1 + k = i + (k + 1) := by omega
      simpa [heq] using this

/-- C3: with a body kind and a resolvable type, function validation first
rejects too few locals with `TooFewFuncLocalsForParams`, then rejects the
smallest parameter position whose local type disagrees with
`ParamTypeMismatchWithLocal`, and otherwise delegates to the body
type-checker with the full locals list, the optional single result type
(`results[0]` if present) and the instruction sequence. -/
theorem func_body_validate_order {Tb G M : Type} (m : Module Tb G M)
    (source : String) (f : Func) (locals : List ValType) (expr : List Insn)
    (func_ty : FuncType)
    (hk : f.kind = .body locals expr)
    (ht : m.types.get? f.idx = some func_ty) :
    (locals.length < func_ty.params.length →
      func_validate m source f =
        some (.error ⟨.TooFewFuncLocalsForParams func_ty.params.length
          locals.length, f.start, source⟩)) ∧
    (∀ k p l, func_ty.params.length ≤ locals.length →
      func_ty.params.get? k = some p → locals.get? k = some l → l ≠ p →
      (∀ j, j < k → locals.get? j = func_ty.params.get? j) →
      func_validate m source f =
        some (.error ⟨.ParamTypeMismatchWithLocal k p l,
          f.start, source⟩)) ∧
    (func_ty.params.length ≤ locals.length →
      (∀ j, j < func_ty.params.length →
        locals.get? j = func_ty.params.get? j) →
      func_validate m source f =
        some (validate_func_body source expr locals func_ty.results.head?
          f.start)) := by
  have hv : validate_idx source m.types f.idx "type" f.start = .ok func_ty := by
    unfold validate_idx; rw [ht]
  refine ⟨fun hlen => ?_, fun k p l hge hp hl hne hprev => ?_,
    fun hge hall => ?_⟩
  · simp [func_validate, hv, hk, hlen]
  · have hnl : ¬ locals.length < func_ty.params.length := by omega
    have hcp := checkParams_first_mismatch source f.start locals
      func_ty.params 0 k p l hp (by simpa using hl) hne
      (fun j hj => by simpa using hprev j hj)
    rw [Nat.zero_add] at hcp
    simp [func_validate, hv, hk, hnl, hcp]
  · have hnl : ¬ locals.length < func_ty.params.length := by omega
    have hcp := checkParams_all_ok source f.start locals func_ty.params 0
      (fun j hj => by simpa using hall j hj)
    simp [func_validate, hv, hk, hnl, hcp]

/-- Witness for C3: a function with two parameters but one local fails with
`TooFewFuncLocalsForParams{2, 1}`. -/
theorem func_body_validate_order_witness :
    func_validate
      (⟨[⟨0, [.I32, .I32], []⟩], [], [], [], []⟩ : Module Unit Unit Unit)
      "" ⟨5, 0, .body [.I32] []⟩ =
      some (.error ⟨.TooFewFuncLocalsForParams 2 1, 5, ""⟩) :=
  (func_body_validate_order
      (⟨[⟨0, [.I32, .I32], []⟩], [], [], [], []⟩ : Module Unit Unit Unit)
      "" ⟨5, 0, .body [.I32] []⟩ [.I32] [] ⟨0, [.I32, .I32], []⟩
      rfl rfl).1 (by decide)

theorem checkSeq_unreachable_plain (source : String) (offset : Nat) :
    ∀ (insns : List Insn) (outer : List CtrlFrame) (cur : CtrlFrame)
      (stack : List ValType),
      cur.unreachable = true → (∀ i ∈ insns, isPlain i = true) →
      ∃ stack',
        checkSeq source offset outer cur stack insns = .ok (stack', cur) := by
  intro insns
  induction insns with
  | nil => intro outer cur stack _ _; exact ⟨stack, by simp [checkSeq]⟩
  | cons i insns ih =>
    intro outer cur stack hu hall
    have hi : isPlain i = true := hall i (List.mem_cons_self i insns)
    cases i with
    | plain tin tout =>
      obtain ⟨stack', hs⟩ := ih outer cur
        (tout ++ dropPoly cur.height stack tin.length) hu
        (fun j hj => hall j (List.mem_cons_of_mem _ hj))
      refine ⟨stack', ?_⟩
      rw [checkSeq, if_pos hu]
      exact hs
    | block ps rs body => simp [isPlain] at hi
    | loopB ps rs body => simp [isPlain] at hi
    | iteB ps rs thn els => simp [isPlain] at hi
    | br d c => simp [isPlain] at hi

/-- C6: with the current frame's unreachable flag set, every pop is
satisfied by manufacturing the required type on demand — a plain
instruction always succeeds, pushing exactly its declared result types —
and any sequence of plain instructions validates; consequently a function
body consisting of an unconditional branch followed by arbitrary plain
instructions (for instance a wrongly-typed push) validates. -/
theorem unreachable_polymorphism (source : String) (offset : Nat) :
    (∀ (outer : List CtrlFrame) (cur : CtrlFrame)
       (stack tin tout : List ValType),
      cur.unreachable = true →
      checkSeq source offset outer cur stack [.plain tin tout] =
        .ok (tout ++ dropPoly cur.height stack tin.length, cur)) ∧
    (∀ (outer : List CtrlFrame) (cur : CtrlFrame) (stack : List ValType)
       (insns : List Insn),
      cur.unreachable = true → (∀ i ∈ insns, isPlain i = true) →
      ∃ stack',
        checkSeq source offset outer cur stack insns = .ok (stack', cur)) ∧
    (∀ (rest : List Insn) (locals : List ValType),
      (∀ i ∈ rest, isPlain i = true) →
      validate_func_body source (.br 0 false :: rest) locals none offset =
        .ok ()) := by
  refine ⟨fun outer cur stack tin tout hu => ?_,
    fun outer cur stack insns hu hall =>
      checkSeq_unreachable_plain source offset insns outer cur stack hu hall,
    fun rest locals hall => ?_⟩
  · rw [checkSeq, if_pos hu, checkSeq]
  · obtain ⟨stack', hs⟩ := checkSeq_unreachable_plain source offset rest []
      ⟨[], 0, true⟩ [] rfl hall
    unfold validate_func_body
    have hstep :
        checkSeq source offset [] ⟨(none : Option ValType).toList, 0, false⟩
          [] (.br 0 false :: rest) =
          checkSeq source offset [] ⟨[], 0, true⟩ [] rest := by
      rw [checkSeq]
      simp [popOperands]
    rw [hstep, hs]
    simp

/-- Witness for C6: an unconditional branch followed by a wrongly-typed
push still validates against an empty result type. -/
theorem unreachable_polymorphism_witness :
    validate_func_body "" [.br 0 false, .plain [] [.F32]] [] none 0 =
      .ok () :=
  (unreachable_polymorphism "" 0).2.2 [.plain [] [.F32]] [] (by decide)

end Wain
